import Mathlib

/-!
# AutoUpdater — verification of the update pipeline

A shallow embedding of `src/includes/AutoUpdater.cpp` (class `AutoUpdater`):

* the lexicographic string comparison used by `is_update_available` for
  release dates (`std::string::operator>`, i.e. byte-wise lexicographic
  comparison) is embedded as `lexLt` / `strGtCpp`;
* the JSON document returned by the GitHub "latest release" endpoint is
  embedded at the granularity at which the code reads it
  (`jsoncpp` `isMember` / `asString` / `asInt` accesses) as `ApiResponse`;
* `parse_github_api_response`, `is_update_available`, `download_update`
  and `update` are embedded as pure functions over an explicit updater
  state, an explicit environment of external outcomes (curl results,
  filesystem exceptions) and an explicit filesystem value.

The non-Windows (`#else`) branches are the ones embedded: the direct
replace strategy, `/proc/self/exe` resolution, `fopen`.
-/

/-! ## Byte-wise lexicographic string order (std::string comparison)

`std::string::operator<` compares character sequences lexicographically.
`lexLt a b` is that order on the underlying character lists (characters
compared by code point, which for the ASCII date strings at issue is the
byte order C++ uses). -/

/-- Lexicographic strict order on character lists, comparing characters by
code point; embeds `std::string::operator<`. -/
def lexLt : List Char → List Char → Bool
  | _, [] => false
  | [], _ :: _ => true
  | a :: as, b :: bs =>
    if a.toNat < b.toNat then true
    else if b.toNat < a.toNat then false
    else lexLt as bs

/-- `a < b` on strings as C++ `std::string::operator<` computes it. -/
def strLtCpp (a b : String) : Bool := lexLt a.data b.data

/-- `a > b` on strings as C++ `std::string::operator>` computes it
(used at `AutoUpdater.cpp:298`, `latest_date > current_release_date`). -/
def strGtCpp (a b : String) : Bool := strLtCpp b a

/-- `s.substr(0, 10)` of C++: the first (at most) ten characters
(used at `AutoUpdater.cpp:295`). -/
def take10 (s : String) : String := String.mk (s.data.take 10)

/-! ## Digit strings and their numeric value -/

/-- Numeric value of a (digit) character: distance of its code point
from `'0'`. -/
def digitVal (c : Char) : Nat := c.toNat - 48

/-- `c` is an ASCII digit `'0'..'9'`. -/
def isDigitCh (c : Char) : Bool := decide (48 ≤ c.toNat) && decide (c.toNat ≤ 57)

/-- Value of a big-endian string of digit characters. -/
def digitsVal : List Char → Nat
  | [] => 0
  | c :: cs => digitVal c * 10 ^ cs.length + digitsVal cs

/-! ## Zero-padded `YYYY-MM-DD` date strings -/

/-- A character list of the exact shape `YYYY-MM-DD`: ten characters,
digits in the year/month/day positions, `'-'` separators. -/
def validDL : List Char → Bool
  | [y1, y2, y3, y4, h1, m1, m2, h2, d1, d2] =>
    isDigitCh y1 && isDigitCh y2 && isDigitCh y3 && isDigitCh y4 &&
    (h1 == '-') && isDigitCh m1 && isDigitCh m2 && (h2 == '-') &&
    isDigitCh d1 && isDigitCh d2
  | _ => false

/-- `s` is a zero-padded fixed-width `YYYY-MM-DD` date string. -/
def validDate (s : String) : Bool := validDL s.data

/-- Year denoted by a `YYYY-MM-DD` character list. -/
def yearL : List Char → Nat
  | y1 :: y2 :: y3 :: y4 :: _ => digitsVal [y1, y2, y3, y4]
  | _ => 0

/-- Month denoted by a `YYYY-MM-DD` character list. -/
def monthL : List Char → Nat
  | _ :: _ :: _ :: _ :: _ :: m1 :: m2 :: _ => digitsVal [m1, m2]
  | _ => 0

/-- Day denoted by a `YYYY-MM-DD` character list. -/
def dayL : List Char → Nat
  | _ :: _ :: _ :: _ :: _ :: _ :: _ :: _ :: d1 :: d2 :: _ => digitsVal [d1, d2]
  | _ => 0

/-- Year denoted by a `YYYY-MM-DD` date string. -/
def yearOf (s : String) : Nat := yearL s.data

/-- Month denoted by a `YYYY-MM-DD` date string. -/
def monthOf (s : String) : Nat := monthL s.data

/-- Day denoted by a `YYYY-MM-DD` date string. -/
def dayOf (s : String) : Nat := dayL s.data

/-- Chronological order on the dates two `YYYY-MM-DD` strings denote:
earlier year, or same year and earlier month, or same year and month and
earlier day. -/
def chronoBefore (s t : String) : Prop :=
  yearOf s < yearOf t ∨
    (yearOf s = yearOf t ∧
      (monthOf s < monthOf t ∨ (monthOf s = monthOf t ∧ dayOf s < dayOf t)))

instance (s t : String) : Decidable (chronoBefore s t) := by
  unfold chronoBefore
  infer_instance

/-! ## The parsed release document

The code reads the GitHub response through `jsoncpp` only via
`isMember`, `asString` and `asInt` on the fields below
(`AutoUpdater.cpp:278-300`, `516-535`).  `ApiResponse` records exactly that
view: a field is `some v` when present (with its converted value) and
`none` when absent.  `assets = some l` corresponds to `"assets"` being
present and an array; each array element is read through the same three
optional fields. -/

/-- One element of the `"assets"` array, at the granularity the code reads
it (`AutoUpdater.cpp:527-534`). -/
structure AssetEntry where
  name : Option String
  browser_download_url : Option String
  id : Option Int
deriving DecidableEq, Repr

/-- The parsed "latest release" document, at the granularity the code
reads it. -/
structure ApiResponse where
  message : Option String
  published_at : Option String
  tag_name : Option String
  assets : Option (List AssetEntry)
deriving DecidableEq, Repr

/-! ## `std::map` as a sorted association list -/

/-- `m[k] = v` on a `std::map<string, α>` kept sorted by key:
insert at the sorted position, or overwrite an existing key. -/
def mapInsert {α : Type} (k : String) (v : α) : List (String × α) → List (String × α)
  | [] => [(k, v)]
  | (k', v') :: rest =>
    if k = k' then (k, v) :: rest
    else if strLtCpp k k' = true then (k, v) :: (k', v') :: rest
    else (k', v') :: mapInsert k v rest

/-- `m.find(k)` on an association list: the value at key `k`, if any. -/
def lookupA {α : Type} : List (String × α) → String → Option α
  | [], _ => none
  | (k', v') :: rest, k => if k = k' then some v' else lookupA rest k

/-! ## `parse_github_api_response` (`AutoUpdater.cpp:489-540`) -/

/-- One step of the loop at `AutoUpdater.cpp:526-536`: an asset entry is
added to both tables when it has all of `name`, `browser_download_url`
and `id`, and skipped otherwise. -/
def insertEntry (acc : List (String × String) × List (String × Int)) (a : AssetEntry) :
    List (String × String) × List (String × Int) :=
  match a.name, a.browser_download_url, a.id with
  | some n, some u, some i => (mapInsert n u acc.1, mapInsert n i acc.2)
  | _, _, _ => acc

/-- `AutoUpdater::parse_github_api_response`, for a response whose JSON
parse succeeded: returns (asset name → download URL, tag name,
asset name → id).  `tag_name` defaults to the empty string when absent;
both tables are empty when `"assets"` is absent or not an array. -/
def parse_github_api_response (root : ApiResponse) :
    List (String × String) × String × List (String × Int) :=
  let tag_name := root.tag_name.getD ""
  match root.assets with
  | some arr =>
    let tables := arr.foldl insertEntry ([], [])
    (tables.1, tag_name, tables.2)
  | none => ([], tag_name, [])

/-! ## The updater object and `is_update_available` -/

/-- The instance fields of class `AutoUpdater` that carry update logic
state (`AutoUpdater.cpp:342-349`).  The raw `CURL*` handle is tracked
through `initialized`; the progress-bar clock is irrelevant to every
operation modelled here. -/
structure AutoUpdaterState where
  verbose : Bool
  release_url : String
  initialized : Bool
  current_release_date : String
  github_repo_owner : String
  github_repo_name : String
  asset_name : String
deriving DecidableEq, Repr

/-- Outcome of the HTTP GET plus JSON parse in `is_update_available`:
`curlFail` for `curl_easy_perform ≠ CURLE_OK`, `parseFail` for a body
`Json::parseFromStream` rejects, `parsed root` for a parsed document. -/
inductive NetResult where
  | curlFail
  | parseFail
  | parsed (root : ApiResponse)
deriving DecidableEq, Repr

/-- The body of `AutoUpdater::is_update_available` after curl
initialization (`AutoUpdater.cpp:245-339`), returning the C++ return
value together with the updated object state. -/
def check_body (st : AutoUpdaterState) (net : NetResult) : Bool × AutoUpdaterState :=
  match net with
  | NetResult.curlFail => (false, st)
  | NetResult.parseFail => (false, st)
  | NetResult.parsed root =>
    if root.message = some "Not Found" then (false, st)
    else
      match root.published_at with
      | none => (false, st)
      | some latest_full_date =>
        let latest_date := take10 latest_full_date
        let is_newer := strGtCpp latest_date st.current_release_date
        let parsed := parse_github_api_response root
        match lookupA parsed.1 st.asset_name with
        | some url => (is_newer, { st with release_url := url })
        | none => (false, st)

/-- `AutoUpdater::is_update_available` (`AutoUpdater.cpp:237-339`).
`initOk` is the outcome `curl_easy_init` would have on this run (only
consulted when the object is not yet initialized, mirroring the
short-circuit at line 240). -/
def is_update_available (st : AutoUpdaterState) (initOk : Bool) (net : NetResult) :
    Bool × AutoUpdaterState :=
  if st.initialized = true then check_body st net
  else if initOk = true then check_body { st with initialized := true } net
  else (false, st)

/-! ## Filesystem model

Files as an association list from absolute path to byte content.  The
directory structure is implicit in the path strings; `fsRemoveAll d`
models `fs::remove_all(d)` by dropping `d` itself and every path below
`d`. -/

/-- A filesystem: each extant file's path paired with its bytes. -/
abbrev FileSys := List (String × List Nat)

/-- Content of the file at `p`, if it exists. -/
def fsRead : FileSys → String → Option (List Nat)
  | [], _ => none
  | e :: rest, p => if e.1 == p then some e.2 else fsRead rest p

/-- `fs::remove(p)`. -/
def fsRemove : FileSys → String → FileSys
  | [], _ => []
  | e :: rest, p => if e.1 == p then fsRemove rest p else e :: fsRemove rest p

/-- Create or overwrite the file at `p` with content `c`. -/
def fsWrite (fs : FileSys) (p : String) (c : List Nat) : FileSys :=
  (p, c) :: fsRemove fs p

/-- `pre` is an initial segment of `s` (character lists). -/
def listStartsWith : List Char → List Char → Bool
  | [], _ => true
  | _ :: _, [] => false
  | a :: as, b :: bs => (a == b) && listStartsWith as bs

/-- `fs::remove_all(d)`: drop `d` and everything below it. -/
def fsRemoveAll : FileSys → String → FileSys
  | [], _ => []
  | e :: rest, d =>
    if (e.1 == d) || listStartsWith (d ++ "/").data e.1.data then fsRemoveAll rest d
    else e :: fsRemoveAll rest d

/-- `fs::path::filename()` for the POSIX paths in play: the part after
the last `/`. -/
def baseName (p : String) : String :=
  String.mk (p.data.foldl (fun acc c => if c = '/' then [] else acc ++ [c]) [])

/-! ## Environment of external outcomes for `update` -/

/-- Outcome of the `curl` transfer inside `download_update`
(`AutoUpdater.cpp:559-613`): `fopenFail` when the destination file cannot
be opened; otherwise `transfer written curlOk vanished`, where `written`
is what curl wrote to the open file, `curlOk` is
`curl_easy_perform == CURLE_OK`, and `vanished` models the re-read
`fs::file_size(file_path, ec)` failing (the file inaccessible after the
transfer). -/
inductive DlOutcome where
  | fopenFail
  | transfer (written : List Nat) (curlOk : Bool) (vanished : Bool)
deriving DecidableEq, Repr

/-- Outcome of the remove-and-copy at `AutoUpdater.cpp:186-189`:
an exception before the original is removed, an exception after it is
removed, or a completed copy that landed `actual` bytes at the target
(a short copy makes `actual` differ from the staged bytes). -/
inductive ReplaceOutcome where
  | threwBeforeRemove
  | threwAfterRemove
  | copied (actual : List Nat)
deriving DecidableEq, Repr

/-- All external outcomes one `update()` run can observe:
`tmp` from `create_temp_directory` (`none` = failure/empty path),
`initOk` from `curl_easy_init`, `dl` from the download transfer,
`exeResolved` from `fs::canonical("/proc/self/exe")`,
`backupOk` for the backup `fs::copy_file` not throwing,
`replace` for the remove-and-copy,
`mismatchRestoreOk` for the restore copy at line 201 not throwing,
`catchRestoreOk` for the restore copy at line 212 not throwing. -/
structure UpdateEnv where
  tmp : Option String
  initOk : Bool
  dl : DlOutcome
  exeResolved : Option String
  backupOk : Bool
  replace : ReplaceOutcome
  mismatchRestoreOk : Bool
  catchRestoreOk : Bool
deriving DecidableEq, Repr

/-! ## `download_update` (`AutoUpdater.cpp:543-617`) -/

/-- `AutoUpdater::download_update`: stages the artifact as
`destination_dir / asset_name`; returns the staged path (`none` embeds
the C++ empty-string failure return) and the filesystem after the
call. -/
def download_update (st : AutoUpdaterState) (env : UpdateEnv) (fs : FileSys)
    (destination_dir download_url : String) : Option String × FileSys :=
  if st.initialized = false ∧ env.initOk = false then (none, fs)
  else if download_url = "" then (none, fs)
  else
    let file_path := destination_dir ++ "/" ++ st.asset_name
    match env.dl with
    | DlOutcome.fopenFail => (none, fs)
    | DlOutcome.transfer written curlOk vanished =>
      let fs1 := fsWrite fs file_path written
      if curlOk = false then (none, fsRemove fs1 file_path)
      else
        let fs2 := if vanished then fsRemove fs1 file_path else fs1
        match fsRead fs2 file_path with
        | none => (none, fsRemove fs2 file_path)
        | some content =>
          if content.length = 0 then (none, fsRemove fs2 file_path)
          else (some file_path, fs2)

/-! ## `update` (`AutoUpdater.cpp:96-230`, non-Windows branches) -/

/-- `AutoUpdater::update`: the download / backup / direct-replace
sequence, returning the C++ return value and the filesystem after the
call.  The size-mismatch branch (`AutoUpdater.cpp:198-202`) restores the
backup and then falls through to the cleanup and `return true` at lines
226-229, exactly as the source does. -/
def update (st : AutoUpdaterState) (env : UpdateEnv) (fs : FileSys) : Bool × FileSys :=
  if st.release_url = "" then (false, fs)
  else
    match env.tmp with
    | none => (false, fs)
    | some tmp_path =>
      match download_update st env fs tmp_path st.release_url with
      | (none, fs1) => (false, fsRemoveAll fs1 tmp_path)
      | (some downloaded_file, fs1) =>
        match env.exeResolved with
        | none => (false, fsRemoveAll fs1 tmp_path)
        | some current_exe =>
          let backup_path := tmp_path ++ "/" ++ baseName current_exe ++ ".bak"
          match (if env.backupOk = true then fsRead fs1 current_exe else none) with
          | none => (false, fsRemoveAll fs1 tmp_path)
          | some exe_content =>
            let fs2 := fsWrite fs1 backup_path exe_content
            match fsRead fs2 downloaded_file with
            | none =>
              let fs3 := if env.catchRestoreOk then fsWrite fs2 current_exe exe_content else fs2
              (false, fsRemoveAll fs3 tmp_path)
            | some staged =>
              match env.replace with
              | ReplaceOutcome.threwBeforeRemove =>
                let fs3 := if env.catchRestoreOk then fsWrite fs2 current_exe exe_content else fs2
                (false, fsRemoveAll fs3 tmp_path)
              | ReplaceOutcome.threwAfterRemove =>
                let fs3 := fsRemove fs2 current_exe
                let fs4 := if env.catchRestoreOk then fsWrite fs3 current_exe exe_content else fs3
                (false, fsRemoveAll fs4 tmp_path)
              | ReplaceOutcome.copied actual =>
                let fs3 := fsWrite (fsRemove fs2 current_exe) current_exe actual
                if actual.length = staged.length then (true, fsRemoveAll fs3 tmp_path)
                else if env.mismatchRestoreOk then
                  let fs4 := fsWrite fs3 current_exe exe_content
                  (true, fsRemoveAll fs4 tmp_path)
                else
                  let fs4 := if env.catchRestoreOk then fsWrite fs3 current_exe exe_content else fs3
                  (false, fsRemoveAll fs4 tmp_path)

/-! ## Concrete fixtures

States, release documents, environments and filesystems used to
instantiate the theorems below on concrete runs.  `exampleState` mirrors
the configuration of `src/example.cpp`. -/

/-- The updater of `src/example.cpp` right after construction. -/
def exampleState : AutoUpdaterState :=
  { verbose := true, release_url := "", initialized := true,
    current_release_date := "2025-05-02", github_repo_owner := "Author",
    github_repo_name := "MyApp", asset_name := "app_linux_x86_64" }

/-- `exampleState` after a check selected `https://dl/app`. -/
def updaterWithUrl : AutoUpdaterState :=
  { exampleState with release_url := "https://dl/app" }

/-- A release document carrying the configured asset, published
2025-06-08. -/
def rootWithAsset : ApiResponse :=
  { message := none, published_at := some "2025-06-08T10:00:00Z",
    tag_name := some "v2",
    assets := some [{ name := some "app_linux_x86_64",
                      browser_download_url := some "https://dl/app",
                      id := some 7 }] }

/-- A release document published 2025-06-08 whose only asset is not the
configured one. -/
def rootOtherAsset : ApiResponse :=
  { message := none, published_at := some "2025-06-08T10:00:00Z",
    tag_name := some "v2",
    assets := some [{ name := some "other.zip",
                      browser_download_url := some "https://dl/other.zip",
                      id := some 7 }] }

/-- A release document carrying the configured asset but published on the
configured current release date itself (not newer). -/
def rootSameDate : ApiResponse :=
  { rootWithAsset with published_at := some "2025-05-02T00:00:00Z" }

/-- A release document with three well-formed asset entries and one entry
missing `id`. -/
def fixtureRelease : ApiResponse :=
  { message := none, published_at := some "2025-06-08T10:00:00Z",
    tag_name := some "v1.2",
    assets := some
      [ { name := some "a.zip", browser_download_url := some "https://dl/a.zip", id := some 1 },
        { name := some "b.zip", browser_download_url := some "https://dl/b.zip", id := some 2 },
        { name := some "no-id.zip", browser_download_url := some "https://dl/no-id.zip", id := none },
        { name := some "c.zip", browser_download_url := some "https://dl/c.zip", id := some 3 } ] }

/-- A filesystem holding only the running executable. -/
def fsStart : FileSys := [("/usr/bin/app", [1, 2, 3, 4])]

/-- An environment in which every external step succeeds and the replace
copy lands the staged bytes intact. -/
def envHappy : UpdateEnv :=
  { tmp := some "/tmp/autoupdater_1", initOk := true,
    dl := DlOutcome.transfer [9, 9, 9] true false,
    exeResolved := some "/usr/bin/app", backupOk := true,
    replace := ReplaceOutcome.copied [9, 9, 9],
    mismatchRestoreOk := true, catchRestoreOk := true }

/-- As `envHappy`, but the replace copy lands only 2 of the 3 staged
bytes: the post-copy size re-read differs from the staged size. -/
def envMismatch : UpdateEnv :=
  { envHappy with replace := ReplaceOutcome.copied [9, 9] }

/-- As `envHappy`, but the replace throws after removing the original and
the restore from backup also fails: the critical-failure path. -/
def envCritical : UpdateEnv :=
  { envHappy with
      replace := ReplaceOutcome.threwAfterRemove
      catchRestoreOk := false }

/-- As `envHappy`, but the transfer writes zero bytes. -/
def envZero : UpdateEnv :=
  { envHappy with dl := DlOutcome.transfer [] true false }

theorem digitVal_le_nine {c : Char} (h : isDigitCh c = true) : digitVal c ≤ 9 := by
  have h' := h
  unfold isDigitCh at h'
  simp [Bool.and_eq_true, decide_eq_true_eq] at h'
  unfold digitVal
  omega

theorem char_eq_of_toNat_eq {a b : Char} (h : a.toNat = b.toNat) : a = b := by
  have hv : a.val = b.val := by
    apply UInt32.ext
    exact h
  exact Char.eq_of_val_eq hv

theorem digitsVal_lt_pow (l : List Char) (h : ∀ c ∈ l, isDigitCh c = true) :
    digitsVal l < 10 ^ l.length := by
  induction l with
  | nil => simp [digitsVal]
  | cons c cs ih =>
    have hc : digitVal c ≤ 9 := digitVal_le_nine (h c (List.mem_cons_self c cs))
    have hcs := ih (fun d hd => h d (List.mem_cons_of_mem c hd))
    have hmul : digitVal c * 10 ^ cs.length ≤ 9 * 10 ^ cs.length :=
      Nat.mul_le_mul_right _ hc
    have hpow : 10 ^ (c :: cs).length = 10 ^ cs.length * 10 := by
      simp [List.length_cons, pow_succ]
    rw [hpow]
    unfold digitsVal
    omega

/-- On equal-length digit strings, lexicographic order coincides with the
order of the denoted numbers. -/
theorem lexLt_digits_iff :
    ∀ (as bs : List Char), as.length = bs.length →
      (∀ c ∈ as, isDigitCh c = true) → (∀ c ∈ bs, isDigitCh c = true) →
      (lexLt as bs = true ↔ digitsVal as < digitsVal bs) := by
  intro as
  induction as with
  | nil =>
    intro bs hlen _ _
    cases bs with
    | nil => simp [lexLt, digitsVal]
    | cons b bs' => simp at hlen
  | cons a as' ih =>
    intro bs hlen ha hb
    cases bs with
    | nil => simp at hlen
    | cons b bs' =>
      have hlen' : as'.length = bs'.length := by
        simpa using hlen
      have hda : ∀ c ∈ as', isDigitCh c = true :=
        fun c hc => ha c (List.mem_cons_of_mem a hc)
      have hdb : ∀ c ∈ bs', isDigitCh c = true :=
        fun c hc => hb c (List.mem_cons_of_mem b hc)
      have hXa : digitsVal as' < 10 ^ as'.length := digitsVal_lt_pow as' hda
      have hXb : digitsVal bs' < 10 ^ bs'.length := digitsVal_lt_pow bs' hdb
      rcases Nat.lt_trichotomy a.toNat b.toNat with hlt | heq | hgt
      · have hab : digitVal a < digitVal b := by
          have h1 := (ha a (List.mem_cons_self a as'))
          unfold isDigitCh at h1
          simp [Bool.and_eq_true, decide_eq_true_eq] at h1
          unfold digitVal
          omega
        have hlex : lexLt (a :: as') (b :: bs') = true := by
          simp [lexLt, hlt]
        rw [hlex]
        simp only [true_iff]
        simp only [digitsVal]
        rw [hlen']
        calc digitVal a * 10 ^ bs'.length + digitsVal as'
            < digitVal a * 10 ^ bs'.length + 10 ^ bs'.length := by
              rw [← hlen']; omega
          _ = (digitVal a + 1) * 10 ^ bs'.length := by ring
          _ ≤ digitVal b * 10 ^ bs'.length := Nat.mul_le_mul_right _ (by omega)
          _ ≤ digitVal b * 10 ^ bs'.length + digitsVal bs' := Nat.le_add_right _ _
      · have hab : a = b := char_eq_of_toNat_eq heq
        subst hab
        have hlex : lexLt (a :: as') (a :: bs') = lexLt as' bs' := by
          simp [lexLt]
        rw [hlex, ih bs' hlen' hda hdb]
        simp only [digitsVal]
        rw [hlen']
        omega
      · have hab : digitVal b < digitVal a := by
          have h1 := (hb b (List.mem_cons_self b bs'))
          unfold isDigitCh at h1
          simp [Bool.and_eq_true, decide_eq_true_eq] at h1
          unfold digitVal
          omega
        have hnlt : ¬ a.toNat < b.toNat := by omega
        have hlex : lexLt (a :: as') (b :: bs') = false := by
          simp [lexLt, hnlt, hgt]
        rw [hlex]
        refine iff_of_false (by simp) (not_lt.mpr ?_)
        simp only [digitsVal]
        rw [hlen']
        calc digitVal b * 10 ^ bs'.length + digitsVal bs'
            ≤ digitVal b * 10 ^ bs'.length + 10 ^ bs'.length := by omega
          _ = (digitVal b + 1) * 10 ^ bs'.length := by ring
          _ ≤ digitVal a * 10 ^ bs'.length := Nat.mul_le_mul_right _ (by omega)
          _ ≤ digitVal a * 10 ^ bs'.length + digitsVal as' := Nat.le_add_right _ _

/-- Lexicographic comparison distributes over appending equal-length
leading blocks. -/
theorem lexLt_append (as : List Char) :
    ∀ (bs cs ds : List Char), as.length = bs.length →
      lexLt (as ++ cs) (bs ++ ds) =
        (lexLt as bs || (!(lexLt bs as) && lexLt cs ds)) := by
  induction as with
  | nil =>
    intro bs cs ds hlen
    cases bs with
    | nil => simp [lexLt]
    | cons b bs' => simp at hlen
  | cons a as' ih =>
    intro bs cs ds hlen
    cases bs with
    | nil => simp at hlen
    | cons b bs' =>
      have hlen' : as'.length = bs'.length := by simpa using hlen
      rcases Nat.lt_trichotomy a.toNat b.toNat with hlt | heq | hgt
      · have h1 : ¬ b.toNat < a.toNat := by omega
        simp [List.cons_append, lexLt, hlt, h1]
      · have hab : a = b := char_eq_of_toNat_eq heq
        subst hab
        have h1 : ¬ a.toNat < a.toNat := by omega
        simp [List.cons_append, lexLt, h1]
        exact ih bs' cs ds hlen'
      · have h1 : ¬ a.toNat < b.toNat := by omega
        simp [List.cons_append, lexLt, h1, hgt]

theorem validDL_shape (l : List Char) (h : validDL l = true) :
    ∃ y1 y2 y3 y4 m1 m2 d1 d2,
      l = [y1, y2, y3, y4, '-', m1, m2, '-', d1, d2] ∧
      isDigitCh y1 = true ∧ isDigitCh y2 = true ∧ isDigitCh y3 = true ∧
      isDigitCh y4 = true ∧ isDigitCh m1 = true ∧ isDigitCh m2 = true ∧
      isDigitCh d1 = true ∧ isDigitCh d2 = true :=
  match l, h with
  | [y1, y2, y3, y4, c5, m1, m2, c8, d1, d2], h => by
    unfold validDL at h
    simp only [Bool.and_eq_true, beq_iff_eq] at h
    obtain ⟨⟨⟨⟨⟨⟨⟨⟨⟨h1, h2⟩, h3⟩, h4⟩, h5⟩, h6⟩, h7⟩, h8⟩, h9⟩, h10⟩ := h
    subst h5
    subst h8
    exact ⟨y1, y2, y3, y4, m1, m2, d1, d2, rfl, h1, h2, h3, h4, h6, h7, h9, h10⟩
  | [], h => absurd h (by simp [validDL])
  | [a1], h => absurd h (by simp [validDL])
  | [a1, a2], h => absurd h (by simp [validDL])
  | [a1, a2, a3], h => absurd h (by simp [validDL])
  | [a1, a2, a3, a4], h => absurd h (by simp [validDL])
  | [a1, a2, a3, a4, a5], h => absurd h (by simp [validDL])
  | [a1, a2, a3, a4, a5, a6], h => absurd h (by simp [validDL])
  | [a1, a2, a3, a4, a5, a6, a7], h => absurd h (by simp [validDL])
  | [a1, a2, a3, a4, a5, a6, a7, a8], h => absurd h (by simp [validDL])
  | [a1, a2, a3, a4, a5, a6, a7, a8, a9], h => absurd h (by simp [validDL])
  | a1 :: a2 :: a3 :: a4 :: a5 :: a6 :: a7 :: a8 :: a9 :: a10 :: x :: rest, h =>
    absurd h (by simp [validDL])

theorem digits4 {a b c d : Char} (ha : isDigitCh a = true) (hb : isDigitCh b = true)
    (hc : isDigitCh c = true) (hd : isDigitCh d = true) :
    ∀ x ∈ ([a, b, c, d] : List Char), isDigitCh x = true := by
  intro x hx
  simp at hx
  rcases hx with rfl | rfl | rfl | rfl <;> assumption

theorem digits2 {a b : Char} (ha : isDigitCh a = true) (hb : isDigitCh b = true) :
    ∀ x ∈ ([a, b] : List Char), isDigitCh x = true := by
  intro x hx
  simp at hx
  rcases hx with rfl | rfl <;> assumption

/-- On two `YYYY-MM-DD` character lists, C++ lexicographic comparison is
exactly chronological comparison of the denoted (year, month, day). -/
theorem lexLt_date_iff (l l' : List Char) (hl : validDL l = true) (hl' : validDL l' = true) :
    lexLt l l' = true ↔
      (yearL l < yearL l' ∨ (yearL l = yearL l' ∧
        (monthL l < monthL l' ∨ (monthL l = monthL l' ∧ dayL l < dayL l')))) := by
  obtain ⟨y1, y2, y3, y4, m1, m2, d1, d2, rfl, hy1, hy2, hy3, hy4, hm1, hm2, hd1, hd2⟩ :=
    validDL_shape l hl
  obtain ⟨y1', y2', y3', y4', m1', m2', d1', d2', rfl, hy1', hy2', hy3', hy4', hm1', hm2', hd1', hd2'⟩ :=
    validDL_shape l' hl'
  have hY := lexLt_digits_iff [y1, y2, y3, y4] [y1', y2', y3', y4'] rfl
    (digits4 hy1 hy2 hy3 hy4) (digits4 hy1' hy2' hy3' hy4')
  have hYr := lexLt_digits_iff [y1', y2', y3', y4'] [y1, y2, y3, y4] rfl
    (digits4 hy1' hy2' hy3' hy4') (digits4 hy1 hy2 hy3 hy4)
  have hM := lexLt_digits_iff [m1, m2] [m1', m2'] rfl
    (digits2 hm1 hm2) (digits2 hm1' hm2')
  have hMr := lexLt_digits_iff [m1', m2'] [m1, m2] rfl
    (digits2 hm1' hm2') (digits2 hm1 hm2)
  have hD := lexLt_digits_iff [d1, d2] [d1', d2'] rfl
    (digits2 hd1 hd2) (digits2 hd1' hd2')
  simp only [yearL, monthL, dayL]
  have e1 : ([y1, y2, y3, y4, '-', m1, m2, '-', d1, d2] : List Char)
      = [y1, y2, y3, y4] ++ ('-' :: ([m1, m2] ++ ('-' :: [d1, d2]))) := rfl
  have e2 : ([y1', y2', y3', y4', '-', m1', m2', '-', d1', d2'] : List Char)
      = [y1', y2', y3', y4'] ++ ('-' :: ([m1', m2'] ++ ('-' :: [d1', d2']))) := rfl
  rw [e1, e2, lexLt_append [y1, y2, y3, y4] [y1', y2', y3', y4'] _ _ rfl]
  have hdash : ∀ X Y : List Char, lexLt ('-' :: X) ('-' :: Y) = lexLt X Y := by
    intro X Y
    simp [lexLt]
  rw [hdash, lexLt_append [m1, m2] [m1', m2'] _ _ rfl, hdash]
  simp only [Bool.or_eq_true, Bool.and_eq_true, Bool.not_eq_true']
  rw [hY, hM, hD]
  have hYr' : (lexLt [y1', y2', y3', y4'] [y1, y2, y3, y4] = false)
      ↔ ¬ digitsVal [y1', y2', y3', y4'] < digitsVal [y1, y2, y3, y4] := by
    rw [← hYr]
    simp
  have hMr' : (lexLt [m1', m2'] [m1, m2] = false)
      ↔ ¬ digitsVal [m1', m2'] < digitsVal [m1, m2] := by
    rw [← hMr]
    simp
  rw [hYr', hMr']
  omega


/-! ## Filesystem lemmas -/

theorem fsRead_fsRemove_self (fs : FileSys) (p : String) :
    fsRead (fsRemove fs p) p = none := by
  induction fs with
  | nil => rfl
  | cons e rest ih =>
    cases h : (e.1 == p) <;> simp [fsRemove, fsRead, h, ih]

theorem listStartsWith_self_append (l : List Char) :
    ∀ m : List Char, listStartsWith l (l ++ m) = true := by
  induction l with
  | nil => intro m; rfl
  | cons a as ih =>
    intro m
    simp [listStartsWith, ih]

theorem fsRead_fsRemoveAll_under (fs : FileSys) (d p : String)
    (hp : listStartsWith (d ++ "/").data p.data = true) :
    fsRead (fsRemoveAll fs d) p = none := by
  induction fs with
  | nil => rfl
  | cons e rest ih =>
    cases h : ((e.1 == d) || listStartsWith (d ++ "/").data e.1.data) with
    | true =>
      simp only [fsRemoveAll]
      rw [if_pos h]
      exact ih
    | false =>
      have hne : (e.1 == p) = false := by
        cases heq : (e.1 == p)
        · rfl
        · exfalso
          have he : e.1 = p := by simpa using heq
          rw [he, hp] at h
          simp at h
      simp only [fsRemoveAll]
      rw [if_neg (by rw [h]; simp)]
      simp [fsRead, hne, ih]

/-! ## Asset-table lemmas -/

theorem lookupA_mapInsert_isSome {α : Type} (k : String) (v : α) (m : List (String × α)) :
    ∀ n : String, (lookupA (mapInsert k v m) n).isSome = true ↔
      (n = k ∨ (lookupA m n).isSome = true) := by
  induction m with
  | nil =>
    intro n
    by_cases h : n = k <;> simp [mapInsert, lookupA, h]
  | cons e rest ih =>
    intro n
    obtain ⟨k', v'⟩ := e
    by_cases h1 : k = k'
    · subst h1
      by_cases h2 : n = k <;> simp [mapInsert, lookupA, h2]
    · by_cases h2 : strLtCpp k k' = true
      · by_cases h3 : n = k
        · simp [mapInsert, lookupA, h1, h2, h3]
        · by_cases h4 : n = k'
          · subst h4
            simp [mapInsert, lookupA, h1, h2, h3]
          · simp [mapInsert, lookupA, h1, h2, h3, h4]
      · by_cases h4 : n = k'
        · simp [mapInsert, lookupA, h1, h2, h4]
        · simp [mapInsert, lookupA, h1, h2, h4, ih]

theorem assetTable_foldl_isSome (l : List AssetEntry) :
    ∀ (acc : List (String × String) × List (String × Int)) (n : String),
      (lookupA (l.foldl insertEntry acc).1 n).isSome = true ↔
        ((lookupA acc.1 n).isSome = true ∨
          ∃ a ∈ l, a.name = some n ∧
            a.browser_download_url.isSome = true ∧ a.id.isSome = true) := by
  induction l with
  | nil => simp
  | cons a rest ih =>
    intro acc n
    simp only [List.foldl_cons]
    rw [ih]
    obtain ⟨nameo, urlo, ido⟩ := a
    cases nameo with
    | none => simp [insertEntry]
    | some nm =>
      cases urlo with
      | none => simp [insertEntry]
      | some u =>
        cases ido with
        | none => simp [insertEntry]
        | some i =>
          simp only [insertEntry]
          rw [lookupA_mapInsert_isSome]
          constructor
          · rintro (⟨h | h⟩ | h)
            · exact Or.inr ⟨⟨some nm, some u, some i⟩, by simp [h]⟩
            · exact Or.inl h
            · obtain ⟨x, hx, hprop⟩ := h
              exact Or.inr ⟨x, List.mem_cons_of_mem _ hx, hprop⟩
          · rintro (h | ⟨x, hx, hname, hurl, hid⟩)
            · exact Or.inl (Or.inr h)
            · rcases List.mem_cons.mp hx with rfl | hx'
              · simp at hname
                exact Or.inl (Or.inl hname.symm)
              · exact Or.inr ⟨x, hx', hname, hurl, hid⟩

theorem fsRead_fsWrite_self (fs : FileSys) (p : String) (c : List Nat) :
    fsRead (fsWrite fs p c) p = some c := by
  simp [fsWrite, fsRead]

theorem fsRead_fsRemove_ne (fs : FileSys) (p q : String) (h : ¬ q = p) :
    fsRead (fsRemove fs p) q = fsRead fs q := by
  induction fs with
  | nil => rfl
  | cons e rest ih =>
    cases h1 : (e.1 == p) with
    | false =>
      cases h2 : (e.1 == q) <;> simp [fsRemove, fsRead, h1, h2, ih]
    | true =>
      have hep : e.1 = p := by simpa using h1
      have h2 : (e.1 == q) = false := by
        simp [hep]
        exact fun hh => h hh.symm
      simp [fsRemove, fsRead, h1, h2, ih]

theorem fsRead_fsWrite_ne (fs : FileSys) (p q : String) (c : List Nat) (h : ¬ q = p) :
    fsRead (fsWrite fs p c) q = fsRead fs q := by
  have hb : (p == q) = false := by
    simp
    exact fun hh => h hh.symm
  simp only [fsWrite, fsRead, hb]
  simp only [Bool.false_eq_true, if_false]
  exact fsRead_fsRemove_ne fs p q h

theorem fsRead_fsRemoveAll_outside (fs : FileSys) (d p : String)
    (hd : ¬ p = d) (hpre : listStartsWith (d ++ "/").data p.data = false) :
    fsRead (fsRemoveAll fs d) p = fsRead fs p := by
  induction fs with
  | nil => rfl
  | cons e rest ih =>
    cases h : ((e.1 == d) || listStartsWith (d ++ "/").data e.1.data) with
    | true =>
      have h2 : (e.1 == p) = false := by
        cases heq : (e.1 == p)
        · rfl
        · exfalso
          have he : e.1 = p := by simpa using heq
          rw [he] at h
          cases hpd : (p == d) with
          | true => exact hd (by simpa using hpd)
          | false =>
            rw [hpd, Bool.false_or] at h
            rw [hpre] at h
            exact Bool.noConfusion h
      simp only [fsRemoveAll]
      rw [if_pos h]
      rw [ih]
      simp [fsRead, h2]
    | false =>
      simp only [fsRemoveAll]
      rw [if_neg (by rw [h]; simp)]
      cases h2 : (e.1 == p) <;> simp [fsRead, h2, ih]

/-! ## Symbolic-execution lemmas for the checker and updater -/

theorem is_update_available_initialized (st : AutoUpdaterState) (initOk : Bool)
    (net : NetResult) (hinit : st.initialized = true) :
    is_update_available st initOk net = check_body st net := by
  unfold is_update_available
  rw [if_pos hinit]

theorem check_body_asset_found (st : AutoUpdaterState) (root : ApiResponse)
    (p url : String)
    (hmsg : root.message ≠ some "Not Found")
    (hpub : root.published_at = some p)
    (hasset : lookupA (parse_github_api_response root).1 st.asset_name = some url) :
    check_body st (NetResult.parsed root)
      = (strGtCpp (take10 p) st.current_release_date,
         { st with release_url := url }) := by
  simp only [check_body, hpub, hasset]
  rw [if_neg hmsg]

theorem check_body_asset_absent (st : AutoUpdaterState) (root : ApiResponse)
    (p : String)
    (hmsg : root.message ≠ some "Not Found")
    (hpub : root.published_at = some p)
    (habsent : lookupA (parse_github_api_response root).1 st.asset_name = none) :
    check_body st (NetResult.parsed root) = (false, st) := by
  simp only [check_body, hpub, habsent]
  rw [if_neg hmsg]

theorem download_update_transfer_ok (st : AutoUpdaterState) (env : UpdateEnv)
    (fs : FileSys) (dir url : String) (w : List Nat)
    (hinit : st.initialized = true) (hurl : url ≠ "")
    (hdl : env.dl = DlOutcome.transfer w true false) (hw : w ≠ []) :
    download_update st env fs dir url
      = (some (dir ++ "/" ++ st.asset_name),
         fsWrite fs (dir ++ "/" ++ st.asset_name) w) := by
  unfold download_update
  rw [if_neg (by simp [hinit]), if_neg hurl, hdl]
  simp [fsRead_fsWrite_self, hw]

theorem update_happy_run (st : AutoUpdaterState) (env : UpdateEnv) (fs : FileSys)
    (tmp exe : String) (w exeBytes : List Nat)
    (hurl : st.release_url ≠ "")
    (hinit : st.initialized = true)
    (htmp : env.tmp = some tmp)
    (hdl : env.dl = DlOutcome.transfer w true false)
    (hw : w ≠ [])
    (hexe : env.exeResolved = some exe)
    (hbackup : env.backupOk = true)
    (hreplace : env.replace = ReplaceOutcome.copied w)
    (hfs : fsRead fs exe = some exeBytes)
    (hne1 : ¬ exe = tmp ++ "/" ++ st.asset_name)
    (hne2 : ¬ (tmp ++ "/" ++ st.asset_name) = tmp ++ "/" ++ baseName exe ++ ".bak")
    (hd1 : ¬ exe = tmp)
    (hd2 : listStartsWith (tmp ++ "/").data exe.data = false) :
    (update st env fs).1 = true ∧ fsRead (update st env fs).2 exe = some w := by
  have hdl_eq := download_update_transfer_ok st env fs tmp st.release_url w hinit hurl hdl hw
  have hr1 : fsRead (fsWrite fs (tmp ++ "/" ++ st.asset_name) w) exe = some exeBytes := by
    rw [fsRead_fsWrite_ne _ _ _ _ hne1]
    exact hfs
  have hr2 : fsRead
      (fsWrite (fsWrite fs (tmp ++ "/" ++ st.asset_name) w)
        (tmp ++ "/" ++ baseName exe ++ ".bak") exeBytes)
      (tmp ++ "/" ++ st.asset_name) = some w := by
    rw [fsRead_fsWrite_ne _ _ _ _ hne2]
    exact fsRead_fsWrite_self _ _ _
  unfold update
  rw [if_neg hurl]
  simp only [htmp, hdl_eq, hexe, hbackup, hr1, hr2, hreplace, eq_self_iff_true, if_true]
  constructor
  · trivial
  · rw [fsRead_fsRemoveAll_outside _ _ _ hd1 hd2]
    exact fsRead_fsWrite_self _ _ _

/-! ## The claims -/

/-- C9: for every pair of date strings in zero-padded fixed-width
`YYYY-MM-DD` form, the lexicographic string comparison used by the
checker's date test (`strLtCpp`, the `std::string` order behind
`latest_date > current_release_date`) orders them identically to
chronological comparison of the dates they denote. -/
theorem date_lex_iff_chrono (s t : String)
    (hs : validDate s = true) (ht : validDate t = true) :
    strLtCpp s t = true ↔ chronoBefore s t := by
  unfold strLtCpp chronoBefore yearOf monthOf dayOf
  exact lexLt_date_iff s.data t.data hs ht

/-- C9 witness: the equivalence applied at two concrete dates. -/
theorem date_lex_iff_chrono_witness :
    validDate "2025-05-02" = true ∧ validDate "2025-06-08" = true ∧
      (strLtCpp "2025-05-02" "2025-06-08" = true ↔
        chronoBefore "2025-05-02" "2025-06-08") :=
  ⟨by decide, by decide,
    date_lex_iff_chrono "2025-05-02" "2025-06-08" (by decide) (by decide)⟩

/-- C3 counterexample: a parsed release response with a `published_at`
whose first ten characters are strictly greater than the configured
current date, yet `is_update_available` returns `false`, because the
configured asset name is absent from the asset table; the claimed
"if and only if" fails as stated over all parsed responses containing a
`published_at` timestamp. -/
theorem check_newer_iff_counterexample :
    strGtCpp (take10 "2025-06-08T10:00:00Z") exampleState.current_release_date = true ∧
    (is_update_available exampleState true (NetResult.parsed rootOtherAsset)).1 = false :=
  ⟨by decide, by decide⟩

/-- C3 (amended): for every parsed release response that is not a
"Not Found" payload, contains a `published_at` timestamp, and whose asset
table contains the configured asset name, `is_update_available` reports a
newer release available if and only if the first ten characters of the
timestamp are strictly lexicographically greater than the configured
current release date (strict: equal dates are not newer). -/
theorem check_newer_iff_asset_present (st : AutoUpdaterState) (root : ApiResponse)
    (p url : String)
    (hinit : st.initialized = true)
    (hmsg : root.message ≠ some "Not Found")
    (hpub : root.published_at = some p)
    (hasset : lookupA (parse_github_api_response root).1 st.asset_name = some url) :
    (is_update_available st true (NetResult.parsed root)).1
      = strGtCpp (take10 p) st.current_release_date := by
  rw [is_update_available_initialized st true (NetResult.parsed root) hinit,
    check_body_asset_found st root p url hmsg hpub hasset]

/-- C3 witness: the amended equivalence at a concrete newer release whose
asset is present (current `2025-05-02`, published `2025-06-08T10:00:00Z`,
so the result is `true`). -/
theorem check_newer_iff_asset_present_witness :
    (is_update_available exampleState true (NetResult.parsed rootWithAsset)).1
      = strGtCpp (take10 "2025-06-08T10:00:00Z") exampleState.current_release_date :=
  check_newer_iff_asset_present exampleState rootWithAsset "2025-06-08T10:00:00Z"
    "https://dl/app" (by decide) (by decide) (by decide) (by decide)

/-- C4: for every well-formed release response (parsed, not a "Not Found"
payload, carrying a `published_at`) in which the configured asset name is
absent from the parsed asset table, `is_update_available` returns `false`
and leaves the state unchanged — even when the published date is strictly
newer than the configured current date (no hypothesis on the date is
needed). -/
theorem check_asset_absent_fails (st : AutoUpdaterState) (root : ApiResponse)
    (p : String)
    (hinit : st.initialized = true)
    (hmsg : root.message ≠ some "Not Found")
    (hpub : root.published_at = some p)
    (habsent : lookupA (parse_github_api_response root).1 st.asset_name = none) :
    is_update_available st true (NetResult.parsed root) = (false, st) := by
  rw [is_update_available_initialized st true (NetResult.parsed root) hinit,
    check_body_asset_absent st root p hmsg hpub habsent]

/-- C4 witness: a concrete release strictly newer than the configured
date, whose only asset is not the configured one: the check fails. -/
theorem check_asset_absent_fails_witness :
    strGtCpp (take10 "2025-06-08T10:00:00Z") exampleState.current_release_date = true ∧
    is_update_available exampleState true (NetResult.parsed rootOtherAsset)
      = (false, exampleState) :=
  ⟨by decide,
    check_asset_absent_fails exampleState rootOtherAsset "2025-06-08T10:00:00Z"
      (by decide) (by decide) (by decide) (by decide)⟩

/-- C5 counterexample: a successful `is_update_available` call (it returns
`true`) whose post-state differs from its pre-state: the hidden
`release_url` field changed from `""` to the selected asset URL, refuting
"every field of the object is the same after the call as before it". -/
theorem check_mutates_state_counterexample :
    (is_update_available exampleState true (NetResult.parsed rootWithAsset)).1 = true ∧
    (is_update_available exampleState true (NetResult.parsed rootWithAsset)).2.release_url
      ≠ exampleState.release_url :=
  ⟨by decide, by decide⟩

/-- C5 (amended): a check that selects an asset (in particular every
successful check) on an already-initialized updater mutates exactly one
instance field: it stores the selected asset's download URL in
`release_url`; every other field is unchanged. -/
theorem check_mutates_only_release_url (st : AutoUpdaterState) (root : ApiResponse)
    (p url : String)
    (hinit : st.initialized = true)
    (hmsg : root.message ≠ some "Not Found")
    (hpub : root.published_at = some p)
    (hasset : lookupA (parse_github_api_response root).1 st.asset_name = some url) :
    (is_update_available st true (NetResult.parsed root)).2
      = { st with release_url := url } := by
  rw [is_update_available_initialized st true (NetResult.parsed root) hinit,
    check_body_asset_found st root p url hmsg hpub hasset]

/-- C5 witness: the amended state equation at a concrete successful
check. -/
theorem check_mutates_only_release_url_witness :
    (is_update_available exampleState true (NetResult.parsed rootWithAsset)).2
      = { exampleState with release_url := "https://dl/app" } :=
  check_mutates_only_release_url exampleState rootWithAsset "2025-06-08T10:00:00Z"
    "https://dl/app" (by decide) (by decide) (by decide) (by decide)

/-- C6: for every `download_update` transfer that completes
(`curl_easy_perform` returns OK) but leaves a missing or zero-size file,
the call returns the failure result and the destination path holds no
file afterwards. -/
theorem download_empty_artifact_removed (st : AutoUpdaterState) (env : UpdateEnv)
    (fs : FileSys) (dir url : String) (w : List Nat) (vanished : Bool)
    (hinit : st.initialized = true) (hurl : url ≠ "")
    (hdl : env.dl = DlOutcome.transfer w true vanished)
    (hempty : w = [] ∨ vanished = true) :
    (download_update st env fs dir url).1 = none ∧
    fsRead (download_update st env fs dir url).2 (dir ++ "/" ++ st.asset_name) = none := by
  rcases hempty with hw0 | hv
  · subst hw0
    cases vanished with
    | true =>
      simp [download_update, hinit, hurl, hdl, fsRead_fsRemove_self, fsRead_fsWrite_self]
    | false =>
      simp [download_update, hinit, hurl, hdl, fsRead_fsRemove_self, fsRead_fsWrite_self]
  · subst hv
    simp [download_update, hinit, hurl, hdl, fsRead_fsRemove_self, fsRead_fsWrite_self]

/-- C6 witness: a concrete zero-byte transfer yields no staged path and no
file at the destination. -/
theorem download_empty_artifact_removed_witness :
    (download_update updaterWithUrl envZero fsStart "/tmp/autoupdater_1" "https://dl/app").1
      = none ∧
    fsRead (download_update updaterWithUrl envZero fsStart "/tmp/autoupdater_1"
      "https://dl/app").2
      ("/tmp/autoupdater_1" ++ "/" ++ updaterWithUrl.asset_name) = none :=
  download_empty_artifact_removed updaterWithUrl envZero fsStart "/tmp/autoupdater_1"
    "https://dl/app" [] false (by decide) (by decide) (by decide) (Or.inl rfl)

/-- C7: calling `update()` with an empty `release_url` (no successful
check has run) fails immediately and performs no filesystem action: the
returned filesystem is the input filesystem, for every environment. -/
theorem update_empty_url_noop (st : AutoUpdaterState) (env : UpdateEnv) (fs : FileSys)
    (h : st.release_url = "") :
    update st env fs = (false, fs) := by
  unfold update
  rw [if_pos h]

/-- C7 witness: the freshly constructed example updater, under an
environment in which every step would succeed, still returns failure and
touches nothing. -/
theorem update_empty_url_noop_witness :
    update exampleState envHappy fsStart = (false, fsStart) :=
  update_empty_url_noop exampleState envHappy fsStart (by decide)

/-- C8: the asset table built by `parse_github_api_response` has an entry
for a name exactly when the assets array has an entry with that name, a
download URL and a numeric identifier (entries missing any of the three
are skipped); and the fixture with 3 well-formed entries plus 1 entry
missing `id` yields exactly the 3 well-formed entries. -/
theorem parse_asset_table_exact :
    (∀ (root : ApiResponse) (n : String),
        (lookupA (parse_github_api_response root).1 n).isSome = true ↔
          ∃ a ∈ root.assets.getD [], a.name = some n ∧
            a.browser_download_url.isSome = true ∧ a.id.isSome = true) ∧
    (parse_github_api_response fixtureRelease).1
      = [("a.zip", "https://dl/a.zip"), ("b.zip", "https://dl/b.zip"),
         ("c.zip", "https://dl/c.zip")] := by
  constructor
  · intro root n
    cases hr : root.assets with
    | none => simp [parse_github_api_response, hr, lookupA]
    | some arr =>
      simp only [parse_github_api_response, hr, Option.getD_some]
      rw [assetTable_foldl_isSome]
      simp [lookupA]
  · decide

/-- C10 (implicit): when the configured asset is present in a well-formed
release whose published date is not strictly newer, the check returns
`false` yet stores the asset URL in `release_url`; a subsequent `update()`
on that state passes its non-empty-URL precondition and performs the full
download-and-replace: it returns `true` and the executable's bytes become
the downloaded bytes. -/
theorem stale_url_enables_full_update (st : AutoUpdaterState) (root : ApiResponse)
    (p url : String) (env : UpdateEnv) (fs : FileSys)
    (tmp exe : String) (w exeBytes : List Nat)
    (hinit : st.initialized = true)
    (hmsg : root.message ≠ some "Not Found")
    (hpub : root.published_at = some p)
    (hasset : lookupA (parse_github_api_response root).1 st.asset_name = some url)
    (hnotnewer : strGtCpp (take10 p) st.current_release_date = false)
    (hurl : url ≠ "")
    (htmp : env.tmp = some tmp)
    (hdl : env.dl = DlOutcome.transfer w true false)
    (hw : w ≠ [])
    (hexe : env.exeResolved = some exe)
    (hbackup : env.backupOk = true)
    (hreplace : env.replace = ReplaceOutcome.copied w)
    (hfs : fsRead fs exe = some exeBytes)
    (hne1 : ¬ exe = tmp ++ "/" ++ st.asset_name)
    (hne2 : ¬ (tmp ++ "/" ++ st.asset_name) = tmp ++ "/" ++ baseName exe ++ ".bak")
    (hd1 : ¬ exe = tmp)
    (hd2 : listStartsWith (tmp ++ "/").data exe.data = false) :
    (is_update_available st true (NetResult.parsed root)).1 = false ∧
    (is_update_available st true (NetResult.parsed root)).2.release_url = url ∧
    (update (is_update_available st true (NetResult.parsed root)).2 env fs).1 = true ∧
    fsRead (update (is_update_available st true (NetResult.parsed root)).2 env fs).2 exe
      = some w := by
  have hred : is_update_available st true (NetResult.parsed root)
      = (strGtCpp (take10 p) st.current_release_date,
         { st with release_url := url }) := by
    rw [is_update_available_initialized st true (NetResult.parsed root) hinit,
      check_body_asset_found st root p url hmsg hpub hasset]
  rw [hred, hnotnewer]
  have hrun := update_happy_run { st with release_url := url } env fs tmp exe w exeBytes
    (by simpa using hurl) hinit htmp hdl hw hexe hbackup hreplace hfs hne1 hne2 hd1 hd2
  exact ⟨rfl, rfl, hrun.1, hrun.2⟩

/-- C10 witness: the example configuration against a release published on
the configured current date itself: the check returns `false`, yet the
subsequent `update()` replaces the executable with the downloaded
bytes. -/
theorem stale_url_enables_full_update_witness :
    (is_update_available exampleState true (NetResult.parsed rootSameDate)).1 = false ∧
    (is_update_available exampleState true (NetResult.parsed rootSameDate)).2.release_url
      = "https://dl/app" ∧
    (update (is_update_available exampleState true (NetResult.parsed rootSameDate)).2
      envHappy fsStart).1 = true ∧
    fsRead (update (is_update_available exampleState true (NetResult.parsed rootSameDate)).2
      envHappy fsStart).2 "/usr/bin/app" = some [9, 9, 9] :=
  stale_url_enables_full_update exampleState rootSameDate "2025-05-02T00:00:00Z"
    "https://dl/app" envHappy fsStart "/tmp/autoupdater_1" "/usr/bin/app"
    [9, 9, 9] [1, 2, 3, 4]
    (by decide) (by decide) (by decide) (by decide) (by decide) (by decide)
    (by decide) (by decide) (by decide) (by decide) (by decide) (by decide)
    (by decide) (by decide) (by decide) (by decide) (by decide)

/-- C1 (code bug): a direct-replace run whose post-copy size re-read (2
bytes) differs from the staged artifact's size (3 bytes).  The backup is
restored — the executable's bytes after the run equal the pre-update
bytes `[1, 2, 3, 4]` — but the size-mismatch branch falls through to the
cleanup and `return true` (`AutoUpdater.cpp:198-202, 226-229`), so the
run reports success where the claim requires a failure result. -/
theorem update_size_mismatch_returns_success :
    update updaterWithUrl envMismatch fsStart
      = (true, [("/usr/bin/app", [1, 2, 3, 4])]) := by
  decide

/-- C2 (code bug): the replace throws after the original executable was
removed and the restore from backup also fails (the critical-failure
path); `update()` still runs `fs::remove_all(tmp_path)`
(`AutoUpdater.cpp:220`), deleting the staging directory and the backup
inside it.  The returned filesystem is empty: no executable and no
retained backup, where the claim requires the backup to be kept for
manual recovery. -/
theorem update_critical_failure_deletes_backup :
    update updaterWithUrl envCritical fsStart = (false, []) := by
  decide
